import Mathlib

/-!
# Verification of the elevator dispatch core (src/main.py)

Shallow embedding of the elevator dispatch core of `src/main.py`
(classes `Button`, `ElevatorDoor`, `Elevator`).  Python integers are
modelled as `Int`, the `set[int]` of requested floors as `Finset Int`,
and the per-floor `Button` objects as two `Finset Int` fields (the
floors whose button is currently pressed, resp. stuck).  The timing
delays (`movement_delay_per_floor`, `door_open_time`) only produce
`time.sleep` calls and are irrelevant to all state transitions, so they
are omitted from the configuration.  The recursive dispatch query
`Elevator._get_next_floor` is modelled with explicit fuel: `none` from
`get_next_floor_fuel` means the Python recursion has not returned
within the given number of frames.
-/

set_option maxRecDepth 8000

/-- `Direction` enum of src/main.py (lines 15-19). -/
inductive Direction where
  | UP
  | DOWN
  | IDLE
  deriving DecidableEq

/-- `DoorState` enum of src/main.py (lines 22-27). -/
inductive DoorState where
  | OPEN
  | CLOSED
  | OPENING
  | CLOSING
  deriving DecidableEq

/-- `ElevatorConfig` dataclass (lines 30-36); the two float delay fields
are omitted (they only feed `time.sleep`). -/
structure ElevatorConfig where
  max_floors : Int
  min_floors : Int
  deriving DecidableEq

/-- The default configuration: `max_floors = 15`, `min_floors = 1`. -/
def defaultConfig : ElevatorConfig := { max_floors := 15, min_floors := 1 }

/-- State of one `Elevator` object (lines 309-325) together with the
state of its buttons.  `pressed` is the set of floors `f` with
`_floor_buttons[f]._is_pressed = True`; `stuck` the set with
`_is_stuck = True`.  The door is represented by its `DoorState`. -/
structure Elevator where
  config : ElevatorConfig
  current_floor : Int
  direction : Direction
  door : DoorState
  requested_floors : Finset Int
  pressed : Finset Int
  stuck : Finset Int
  deriving DecidableEq

/-- `Elevator.__init__` (lines 309-325): starts at `min_floors`, idle,
door closed, no requests, every button released and unstuck. -/
def Elevator.init (config : ElevatorConfig) : Elevator :=
  { config := config
    current_floor := config.min_floors
    direction := Direction.IDLE
    door := DoorState.CLOSED
    requested_floors := ∅
    pressed := ∅
    stuck := ∅ }

/-- The list comprehension `[f for f in self._requested_floors if f > self._current_floor]`
(line 416), as a `Finset`. -/
def floors_above (s : Elevator) : Finset Int :=
  s.requested_floors.filter (fun f => s.current_floor < f)

/-- The list comprehension `[f for f in self._requested_floors if f < self._current_floor]`
(line 423), as a `Finset`. -/
def floors_below (s : Elevator) : Finset Int :=
  s.requested_floors.filter (fun f => f < s.current_floor)

/-- `Elevator._get_next_floor` (lines 405-435), with explicit fuel for
the self-recursion.  The result is `none` when the fuel runs out
(modelling a Python recursion that does not return), and otherwise
`some (r, s')` where `r` is the returned `Optional[int]` and `s'` the
elevator state after the call (the recursion mutates `_direction`). -/
def get_next_floor_fuel : Nat → Elevator → Option (Option Int × Elevator)
  | 0, _ => none
  | fuel + 1, s =>
    if s.requested_floors = ∅ then some (none, s)
    else
      match s.direction with
      | Direction.UP =>
        if h : (floors_above s).Nonempty then
          some (some ((floors_above s).min' h), s)
        else
          get_next_floor_fuel fuel { s with direction := Direction.DOWN }
      | Direction.DOWN =>
        if h : (floors_below s).Nonempty then
          some (some ((floors_below s).max' h), s)
        else
          get_next_floor_fuel fuel { s with direction := Direction.UP }
      | Direction.IDLE =>
        if h : s.requested_floors.Nonempty then
          get_next_floor_fuel fuel
            { s with direction :=
                if s.current_floor < s.requested_floors.min' h then Direction.UP
                else Direction.DOWN }
        else some (none, s)

/-- `Elevator._get_next_floor` run with enough fuel for every
terminating execution: a terminating run of the Python recursion uses
at most 3 frames (once a direction repeats on an unchanged request set
the recursion cycles forever), so 4 units of fuel are exact:
`get_next_floor s = none` iff the Python call never returns. -/
def get_next_floor (s : Elevator) : Option (Option Int × Elevator) :=
  get_next_floor_fuel 4 s

/-- `Elevator.press_floor_button` (lines 356-370): bounds check, then
`Button.press` (lines 62-70: fails iff stuck, otherwise sets the
pressed flag), then adds the floor to the request set and resolves an
`IDLE` direction toward the floor. -/
def press_floor_button (s : Elevator) (floor : Int) : Bool × Elevator :=
  if s.config.min_floors ≤ floor ∧ floor ≤ s.config.max_floors then
    if floor ∈ s.stuck then (false, s)
    else
      let s1 : Elevator :=
        { s with pressed := insert floor s.pressed
                 requested_floors := insert floor s.requested_floors }
      if s.direction = Direction.IDLE then
        (true, { s1 with direction :=
                   if s.current_floor < floor then Direction.UP else Direction.DOWN })
      else
        (true, s1)
  else (false, s)

/-- `Elevator.add_random_stop` (lines 372-380).  The value drawn by
`random.randint(min_floors, max_floors)` is passed as the argument
`random_floor`; `randint` guarantees
`min_floors ≤ random_floor ≤ max_floors`. -/
def add_random_stop (s : Elevator) (random_floor : Int) : Elevator :=
  if (s.requested_floors.card : Int) < s.config.max_floors - s.config.min_floors then
    if random_floor ≠ s.current_floor then
      { s with requested_floors := insert random_floor s.requested_floors }
    else s
  else s

/-- The floor-by-floor loop of `Elevator.move_to_floor` (lines 398-403):
`n` iterations, each moving the cabin one floor in direction `d`. -/
def move_steps : Nat → Direction → Int → Int
  | 0, _, c => c
  | n + 1, d, c => move_steps n d (if d = Direction.UP then c + 1 else c - 1)

/-- `Elevator.move_to_floor` (lines 382-403): no-op when already at the
target, otherwise sets the direction by the sign of
`target - current` and steps `|target - current|` floors. -/
def move_to_floor (s : Elevator) (target_floor : Int) : Elevator :=
  if target_floor = s.current_floor then s
  else
    let d := if s.current_floor < target_floor then Direction.UP else Direction.DOWN
    { s with direction := d
             current_floor :=
               move_steps (target_floor - s.current_floor).natAbs d s.current_floor }

/-- `ElevatorDoor.force_open` (lines 148-155): succeeds exactly from
`CLOSING` and then ends `OPEN` (the transient `OPENING` phase lasts only
for the `time.sleep` inside the call); otherwise fails with no change. -/
def force_open (s : Elevator) : Bool × Elevator :=
  if s.door = DoorState.CLOSING then (true, { s with door := DoorState.OPEN })
  else (false, s)

/-- `Elevator.process_next_request` (lines 437-464).  Returns `none`
when the dispatch query diverges; otherwise `some (b, s')` with the
boolean result and final state.  `ElevatorDoor.open` (lines 130-137)
always ends in `OPEN` and `ElevatorDoor.close` (lines 139-146) in
`CLOSED`, so the door conditionals collapse to their final states. -/
def process_next_request (s : Elevator) : Option (Bool × Elevator) :=
  match get_next_floor s with
  | none => none
  | some (none, s1) => some (false, { s1 with direction := Direction.IDLE })
  | some (some nf, s1) =>
    let s2 := move_to_floor s1 nf
    let s3 := if s2.door = DoorState.OPEN then s2 else { s2 with door := DoorState.OPEN }
    let s4 :=
      if nf ∈ s3.requested_floors then
        { s3 with pressed := s3.pressed.erase nf
                  requested_floors := s3.requested_floors.erase nf }
      else s3
    let s5 := if s4.door = DoorState.CLOSED then s4 else { s4 with door := DoorState.CLOSED }
    some (true, s5)

/-! ## Invariant predicates named by the claims -/

/-- "direction is Idle iff RequestSet is empty". -/
def dir_idle_iff_empty (s : Elevator) : Prop :=
  s.direction = Direction.IDLE ↔ s.requested_floors = ∅

instance (s : Elevator) : Decidable (dir_idle_iff_empty s) := by
  unfold dir_idle_iff_empty; infer_instance

/-- "every floor in the RequestSet has its corresponding Button in the
pressed state". -/
def buttons_pressed_inv (s : Elevator) : Prop :=
  s.requested_floors ⊆ s.pressed

instance (s : Elevator) : Decidable (buttons_pressed_inv s) := by
  unfold buttons_pressed_inv; infer_instance

/-- "current floor is always within configured bounds". -/
def in_bounds (s : Elevator) : Prop :=
  s.config.min_floors ≤ s.current_floor ∧ s.current_floor ≤ s.config.max_floors

instance (s : Elevator) : Decidable (in_bounds s) := by
  unfold in_bounds; infer_instance

/-- "every floor in requested_floors lies within [min_floors, max_floors]". -/
def requested_in_bounds (s : Elevator) : Prop :=
  ∀ f ∈ s.requested_floors, s.config.min_floors ≤ f ∧ f ≤ s.config.max_floors

instance (s : Elevator) : Decidable (requested_in_bounds s) := by
  unfold requested_in_bounds; infer_instance

/-! ## Helper lemmas about the dispatch recursion -/

/-- One unfolding step of `get_next_floor_fuel`. -/
lemma gnff_succ (fuel : Nat) (s : Elevator) :
    get_next_floor_fuel (fuel + 1) s =
      (if s.requested_floors = ∅ then some (none, s)
      else
        match s.direction with
        | Direction.UP =>
          if h : (floors_above s).Nonempty then
            some (some ((floors_above s).min' h), s)
          else
            get_next_floor_fuel fuel { s with direction := Direction.DOWN }
        | Direction.DOWN =>
          if h : (floors_below s).Nonempty then
            some (some ((floors_below s).max' h), s)
          else
            get_next_floor_fuel fuel { s with direction := Direction.UP }
        | Direction.IDLE =>
          if h : s.requested_floors.Nonempty then
            get_next_floor_fuel fuel
              { s with direction :=
                  if s.current_floor < s.requested_floors.min' h then Direction.UP
                  else Direction.DOWN }
          else some (none, s)) := rfl

lemma floors_above_ne_empty {s : Elevator} (h : (floors_above s).Nonempty) :
    s.requested_floors ≠ ∅ := by
  obtain ⟨x, hx⟩ := h
  exact Finset.ne_empty_of_mem (Finset.mem_filter.1 hx).1

lemma floors_below_ne_empty {s : Elevator} (h : (floors_below s).Nonempty) :
    s.requested_floors ≠ ∅ := by
  obtain ⟨x, hx⟩ := h
  exact Finset.ne_empty_of_mem (Finset.mem_filter.1 hx).1

lemma gnff_up_hit (fuel : Nat) (s : Elevator) (hd : s.direction = Direction.UP)
    (h : (floors_above s).Nonempty) :
    get_next_floor_fuel (fuel + 1) s = some (some ((floors_above s).min' h), s) := by
  rw [gnff_succ]
  simp only [hd]
  rw [if_neg (floors_above_ne_empty h), dif_pos h]

lemma gnff_up_flip (fuel : Nat) (s : Elevator) (hd : s.direction = Direction.UP)
    (hne : s.requested_floors ≠ ∅) (h : ¬ (floors_above s).Nonempty) :
    get_next_floor_fuel (fuel + 1) s =
      get_next_floor_fuel fuel { s with direction := Direction.DOWN } := by
  rw [gnff_succ]
  simp only [hd]
  rw [if_neg hne, dif_neg h]

lemma gnff_down_hit (fuel : Nat) (s : Elevator) (hd : s.direction = Direction.DOWN)
    (h : (floors_below s).Nonempty) :
    get_next_floor_fuel (fuel + 1) s = some (some ((floors_below s).max' h), s) := by
  rw [gnff_succ]
  simp only [hd]
  rw [if_neg (floors_below_ne_empty h), dif_pos h]

lemma gnff_down_flip (fuel : Nat) (s : Elevator) (hd : s.direction = Direction.DOWN)
    (hne : s.requested_floors ≠ ∅) (h : ¬ (floors_below s).Nonempty) :
    get_next_floor_fuel (fuel + 1) s =
      get_next_floor_fuel fuel { s with direction := Direction.UP } := by
  rw [gnff_succ]
  simp only [hd]
  rw [if_neg hne, dif_neg h]

lemma gnff_idle (fuel : Nat) (s : Elevator) (hd : s.direction = Direction.IDLE)
    (h : s.requested_floors.Nonempty) :
    get_next_floor_fuel (fuel + 1) s =
      get_next_floor_fuel fuel
        { s with direction :=
            if s.current_floor < s.requested_floors.min' h then Direction.UP
            else Direction.DOWN } := by
  rw [gnff_succ]
  simp only [hd]
  rw [if_neg (Finset.nonempty_iff_ne_empty.1 h), dif_pos h]

/-- The dispatch recursion only ever mutates the `direction` field. -/
lemma gnff_frame : ∀ (fuel : Nat) (s : Elevator) (r : Option Int) (s' : Elevator),
    get_next_floor_fuel fuel s = some (r, s') →
    s'.requested_floors = s.requested_floors ∧ s'.current_floor = s.current_floor ∧
      s'.pressed = s.pressed ∧ s'.stuck = s.stuck ∧ s'.door = s.door ∧
      s'.config = s.config := by
  intro fuel
  induction fuel with
  | zero =>
    intro s r s' h
    exact absurd h (by simp [get_next_floor_fuel])
  | succ n ih =>
    intro s r s' h
    rw [gnff_succ] at h
    by_cases he : s.requested_floors = ∅
    · rw [if_pos he] at h
      obtain ⟨-, rfl⟩ := Prod.mk.injEq .. ▸ Option.some.inj h
      exact ⟨rfl, rfl, rfl, rfl, rfl, rfl⟩
    · rw [if_neg he] at h
      cases hd : s.direction <;> simp only [hd] at h
      · by_cases ha : (floors_above s).Nonempty
        · rw [dif_pos ha] at h
          obtain ⟨-, rfl⟩ := Prod.mk.injEq .. ▸ Option.some.inj h
          exact ⟨rfl, rfl, rfl, rfl, rfl, rfl⟩
        · rw [dif_neg ha] at h
          have h' := ih _ _ _ h
          exact h'
      · by_cases hb : (floors_below s).Nonempty
        · rw [dif_pos hb] at h
          obtain ⟨-, rfl⟩ := Prod.mk.injEq .. ▸ Option.some.inj h
          exact ⟨rfl, rfl, rfl, rfl, rfl, rfl⟩
        · rw [dif_neg hb] at h
          have h' := ih _ _ _ h
          exact h'
      · rw [dif_pos (Finset.nonempty_iff_ne_empty.2 he)] at h
        have h' := ih _ _ _ h
        exact h'

/-- When the dispatch query returns a floor, that floor is a pending request. -/
lemma gnff_mem : ∀ (fuel : Nat) (s : Elevator) (nf : Int) (s' : Elevator),
    get_next_floor_fuel fuel s = some (some nf, s') → nf ∈ s.requested_floors := by
  intro fuel
  induction fuel with
  | zero =>
    intro s nf s' h
    exact absurd h (by simp [get_next_floor_fuel])
  | succ n ih =>
    intro s nf s' h
    rw [gnff_succ] at h
    by_cases he : s.requested_floors = ∅
    · rw [if_pos he] at h
      exact absurd (congrArg (fun o => (Option.map Prod.fst o)) h) (by simp)
    · rw [if_neg he] at h
      cases hd : s.direction <;> simp only [hd] at h
      · by_cases ha : (floors_above s).Nonempty
        · rw [dif_pos ha] at h
          have h1 := Prod.mk.injEq .. ▸ Option.some.inj h
          have h2 : nf = (floors_above s).min' ha := (Option.some.inj h1.1).symm
          subst h2
          exact (Finset.mem_filter.1 ((floors_above s).min'_mem ha)).1
        · rw [dif_neg ha] at h
          have h' := ih _ _ _ h
          exact h'
      · by_cases hb : (floors_below s).Nonempty
        · rw [dif_pos hb] at h
          have h1 := Prod.mk.injEq .. ▸ Option.some.inj h
          have h2 : nf = (floors_below s).max' hb := (Option.some.inj h1.1).symm
          subst h2
          exact (Finset.mem_filter.1 ((floors_below s).max'_mem hb)).1
        · rw [dif_neg hb] at h
          have h' := ih _ _ _ h
          exact h'
      · rw [dif_pos (Finset.nonempty_iff_ne_empty.2 he)] at h
        have h' := ih _ _ _ h
        exact h'

/-- Moving `n` floors upward. -/
lemma move_steps_up : ∀ (n : Nat) (c : Int), move_steps n Direction.UP c = c + n := by
  intro n
  induction n with
  | zero => intro c; simp [move_steps]
  | succ m ih =>
    intro c
    rw [show move_steps (m + 1) Direction.UP c
        = move_steps m Direction.UP (c + 1) from by simp [move_steps], ih]
    push_cast
    ring

/-- Moving `n` floors downward. -/
lemma move_steps_down : ∀ (n : Nat) (c : Int), move_steps n Direction.DOWN c = c - n := by
  intro n
  induction n with
  | zero => intro c; simp [move_steps]
  | succ m ih =>
    intro c
    rw [show move_steps (m + 1) Direction.DOWN c
        = move_steps m Direction.DOWN (c - 1) from by simp [move_steps], ih]
    push_cast
    ring

/-- The movement loop always ends exactly at the target floor. -/
lemma move_to_floor_current (s : Elevator) (t : Int) :
    (move_to_floor s t).current_floor = t := by
  unfold move_to_floor
  by_cases he : t = s.current_floor
  · rw [if_pos he, he]
  · rw [if_neg he]
    by_cases hlt : s.current_floor < t
    · simp only [if_pos hlt]
      rw [move_steps_up]
      omega
    · simp only [if_neg hlt]
      rw [move_steps_down]
      omega

/-- `move_to_floor` touches only `current_floor` and `direction`. -/
lemma move_to_floor_frame (s : Elevator) (t : Int) :
    (move_to_floor s t).requested_floors = s.requested_floors ∧
      (move_to_floor s t).pressed = s.pressed ∧
      (move_to_floor s t).stuck = s.stuck ∧
      (move_to_floor s t).door = s.door ∧
      (move_to_floor s t).config = s.config := by
  unfold move_to_floor
  by_cases he : t = s.current_floor
  · rw [if_pos he]
    exact ⟨rfl, rfl, rfl, rfl, rfl⟩
  · rw [if_neg he]
    exact ⟨rfl, rfl, rfl, rfl, rfl⟩

/-- `get_next_floor` exposes one unit of fuel. -/
lemma get_next_floor_eq (s : Elevator) :
    get_next_floor s = get_next_floor_fuel (3 + 1) s := rfl

/-- The dispatch query on an empty request set: reports `None`, state untouched. -/
lemma get_next_floor_empty (s : Elevator) (he : s.requested_floors = ∅) :
    get_next_floor s = some (none, s) := by
  rw [get_next_floor_eq, gnff_succ, if_pos he]

/-- Example state used for concrete checks: direction UP, current floor 5,
pending requests {3, 8, 10} (the dispatch example of the spec). -/
def scanExampleUp : Elevator :=
  { config := defaultConfig, current_floor := 5, direction := Direction.UP,
    door := DoorState.CLOSED, requested_floors := {3, 8, 10},
    pressed := {3, 8, 10}, stuck := ∅ }

/-- C1: for every state with direction UP, `_get_next_floor` returns the
minimum pending floor strictly above the current floor when one exists
(state untouched); when none exists it flips the direction to DOWN and
returns the maximum pending floor strictly below the current floor,
provided one exists; symmetrically for direction DOWN. -/
theorem c1_scan_policy (s : Elevator) :
    (s.direction = Direction.UP →
      (∀ h : (floors_above s).Nonempty,
        get_next_floor s = some (some ((floors_above s).min' h), s)) ∧
      (¬ (floors_above s).Nonempty →
        ∀ h : (floors_below s).Nonempty,
          get_next_floor s =
            some (some ((floors_below s).max' h), { s with direction := Direction.DOWN }))) ∧
    (s.direction = Direction.DOWN →
      (∀ h : (floors_below s).Nonempty,
        get_next_floor s = some (some ((floors_below s).max' h), s)) ∧
      (¬ (floors_below s).Nonempty →
        ∀ h : (floors_above s).Nonempty,
          get_next_floor s =
            some (some ((floors_above s).min' h), { s with direction := Direction.UP }))) := by
  constructor
  · intro hd
    constructor
    · intro h
      exact gnff_up_hit 3 s hd h
    · intro hna h
      have step1 := gnff_up_flip 3 s hd (floors_below_ne_empty h) hna
      have step2 := gnff_down_hit 2 { s with direction := Direction.DOWN } rfl h
      rw [get_next_floor_eq, step1]
      exact step2
  · intro hd
    constructor
    · intro h
      exact gnff_down_hit 3 s hd h
    · intro hnb h
      have step1 := gnff_down_flip 3 s hd (floors_above_ne_empty h) hnb
      have step2 := gnff_up_hit 2 { s with direction := Direction.UP } rfl h
      rw [get_next_floor_eq, step1]
      exact step2

/-- C1 witness: the spec example — direction UP, current floor 5, pending
{3, 8, 10} — returns floor 8 with the state unchanged. -/
theorem c1_scan_policy_witness :
    get_next_floor scanExampleUp = some (some 8, scanExampleUp) := by
  have h := ((c1_scan_policy scanExampleUp).1 rfl).1 (by decide)
  rw [h]
  decide

lemma mem_floors_below {s : Elevator} {f : Int} (hf : f ∈ s.requested_floors)
    (hlt : f < s.current_floor) : f ∈ floors_below s :=
  Finset.mem_filter.2 ⟨hf, hlt⟩

lemma mem_floors_above {s : Elevator} {f : Int} (hf : f ∈ s.requested_floors)
    (hlt : s.current_floor < f) : f ∈ floors_above s :=
  Finset.mem_filter.2 ⟨hf, hlt⟩

/-- Starting from UP or DOWN, the dispatch recursion returns a floor within
two frames whenever some pending floor differs from the current floor. -/
lemma gnff_up_down_total (fuel : Nat) (s : Elevator)
    (hd : s.direction = Direction.UP ∨ s.direction = Direction.DOWN)
    (h : ∃ f ∈ s.requested_floors, f ≠ s.current_floor) :
    ∃ (r : Int) (s' : Elevator),
      get_next_floor_fuel (fuel + 1 + 1) s = some (some r, s') := by
  obtain ⟨f0, hf0, hf0ne⟩ := h
  rcases hd with hd | hd
  · by_cases ha : (floors_above s).Nonempty
    · exact ⟨_, _, gnff_up_hit (fuel + 1) s hd ha⟩
    · have hf0lt : f0 < s.current_floor := by
        rcases lt_trichotomy f0 s.current_floor with h' | h' | h'
        · exact h'
        · exact absurd h' hf0ne
        · exact absurd ⟨f0, mem_floors_above hf0 h'⟩ ha
      have hb : (floors_below { s with direction := Direction.DOWN }).Nonempty :=
        ⟨f0, mem_floors_below (s := { s with direction := Direction.DOWN }) hf0 hf0lt⟩
      rw [gnff_up_flip (fuel + 1) s hd (Finset.ne_empty_of_mem hf0) ha]
      exact ⟨_, _, gnff_down_hit fuel { s with direction := Direction.DOWN } rfl hb⟩
  · by_cases hb : (floors_below s).Nonempty
    · exact ⟨_, _, gnff_down_hit (fuel + 1) s hd hb⟩
    · have hf0lt : s.current_floor < f0 := by
        rcases lt_trichotomy f0 s.current_floor with h' | h' | h'
        · exact absurd ⟨f0, mem_floors_below hf0 h'⟩ hb
        · exact absurd h' hf0ne
        · exact h'
      have ha : (floors_above { s with direction := Direction.UP }).Nonempty :=
        ⟨f0, mem_floors_above (s := { s with direction := Direction.UP }) hf0 hf0lt⟩
      rw [gnff_down_flip (fuel + 1) s hd (Finset.ne_empty_of_mem hf0) hb]
      exact ⟨_, _, gnff_up_hit fuel { s with direction := Direction.UP } rfl ha⟩

/-- C2 (amended): whenever some pending floor differs from the current
floor, `_get_next_floor` terminates and returns some floor. -/
theorem c2_terminates_amended (s : Elevator)
    (h : ∃ f ∈ s.requested_floors, f ≠ s.current_floor) :
    ∃ (r : Int) (s' : Elevator), get_next_floor s = some (some r, s') := by
  have hne : s.requested_floors.Nonempty := by
    obtain ⟨f0, hf0, -⟩ := h
    exact ⟨f0, hf0⟩
  cases hdir : s.direction
  · exact gnff_up_down_total 2 s (Or.inl hdir) h
  · exact gnff_up_down_total 2 s (Or.inr hdir) h
  · rw [get_next_floor_eq, gnff_idle 3 s hdir hne]
    by_cases hc : s.current_floor < s.requested_floors.min' hne
    · refine gnff_up_down_total 1
        { s with direction :=
            if s.current_floor < s.requested_floors.min' hne then Direction.UP
            else Direction.DOWN } (Or.inl ?_) h
      simp only [if_pos hc]
    · refine gnff_up_down_total 1
        { s with direction :=
            if s.current_floor < s.requested_floors.min' hne then Direction.UP
            else Direction.DOWN } (Or.inr ?_) h
      simp only [if_neg hc]

/-- C2 witness: at the spec example state the dispatch query returns a floor. -/
theorem c2_terminates_amended_witness :
    ∃ (r : Int) (s' : Elevator), get_next_floor scanExampleUp = some (some r, s') :=
  c2_terminates_amended scanExampleUp (by decide)

/-- The state reached by pressing the button of the current floor in a
fresh elevator: current floor 1, direction DOWN, pending {1}. -/
def stuckScanState : Elevator :=
  { config := defaultConfig, current_floor := 1, direction := Direction.DOWN,
    door := DoorState.CLOSED, requested_floors := {1}, pressed := {1}, stuck := ∅ }

lemma stuckScanState_reached :
    (press_floor_button (Elevator.init defaultConfig) 1).2 = stuckScanState := by decide

/-- On `stuckScanState` the dispatch recursion alternates UP/DOWN forever:
no amount of fuel makes it return. -/
lemma stuckScanState_diverges : ∀ fuel : Nat,
    get_next_floor_fuel fuel stuckScanState = none ∧
    get_next_floor_fuel fuel { stuckScanState with direction := Direction.UP } = none := by
  intro fuel
  induction fuel with
  | zero => exact ⟨rfl, rfl⟩
  | succ n ih =>
    constructor
    · rw [gnff_down_flip n stuckScanState rfl (by decide) (by decide)]
      exact ih.2
    · rw [gnff_up_flip n { stuckScanState with direction := Direction.UP } rfl
        (by decide) (by decide)]
      exact ih.1

/-- C2 counterexample: after `press_floor_button(1)` on a fresh elevator
(bounds [1,15], current floor 1) the request set is the non-empty {1},
yet `_get_next_floor` never returns: the recursion flips between UP and
DOWN forever (in Python, a `RecursionError`). -/
theorem c2_divergence_counterexample :
    (press_floor_button (Elevator.init defaultConfig) 1).2.requested_floors.Nonempty ∧
    ¬ ∃ (fuel : Nat) (res : Option Int × Elevator),
        get_next_floor_fuel fuel
          (press_floor_button (Elevator.init defaultConfig) 1).2 = some res := by
  constructor
  · decide
  · rintro ⟨fuel, res, hres⟩
    rw [stuckScanState_reached, (stuckScanState_diverges fuel).1] at hres
    exact Option.noConfusion hres

/-- C3 (amended): "direction is Idle iff RequestSet is empty" holds in the
initial state and is preserved by `press_floor_button`, and
`process_next_request` re-establishes it (setting direction Idle) when
called with an empty RequestSet; it is not preserved by
`add_random_stop`, nor by `process_next_request` when it services the
last pending request — direction then stays Up/Down with an empty set
until the next `process_next_request` call. -/
theorem c3_invariant_amended :
    (∀ cfg : ElevatorConfig, dir_idle_iff_empty (Elevator.init cfg)) ∧
    (∀ (s : Elevator) (f : Int),
      dir_idle_iff_empty s → dir_idle_iff_empty (press_floor_button s f).2) ∧
    (∀ s : Elevator, s.requested_floors = ∅ →
      process_next_request s = some (false, { s with direction := Direction.IDLE })) := by
  refine ⟨?_, ?_, ?_⟩
  · intro cfg
    exact ⟨fun _ => rfl, fun _ => rfl⟩
  · intro s f hinv
    unfold press_floor_button
    by_cases hb : s.config.min_floors ≤ f ∧ f ≤ s.config.max_floors
    · rw [if_pos hb]
      by_cases hs : f ∈ s.stuck
      · rw [if_pos hs]
        exact hinv
      · rw [if_neg hs]
        by_cases hid : s.direction = Direction.IDLE
        · rw [if_pos hid]
          constructor
          · intro hdir
            by_cases hc : s.current_floor < f
            · exact absurd hdir (by simp [hc])
            · exact absurd hdir (by simp [hc])
          · intro hreq
            exact absurd hreq (Finset.insert_ne_empty f s.requested_floors)
        · rw [if_neg hid]
          constructor
          · intro hdir
            exact absurd hdir hid
          · intro hreq
            exact absurd hreq (Finset.insert_ne_empty f s.requested_floors)
    · rw [if_neg hb]
      exact hinv
  · intro s he
    unfold process_next_request
    rw [get_next_floor_empty s he]

/-- C3 witness: the invariant holds after pressing floor 3 in a fresh
elevator, and a `process_next_request` on an empty request set reports
idle. -/
theorem c3_invariant_amended_witness :
    dir_idle_iff_empty (press_floor_button (Elevator.init defaultConfig) 3).2 ∧
    process_next_request (Elevator.init defaultConfig) =
      some (false, { Elevator.init defaultConfig with direction := Direction.IDLE }) :=
  ⟨c3_invariant_amended.2.1 (Elevator.init defaultConfig) 3 (by decide),
   c3_invariant_amended.2.2 (Elevator.init defaultConfig) (by decide)⟩

/-- The state of a fresh default elevator after pressing floor 3 and then
servicing it: at floor 3, request set empty, but direction still UP. -/
def servicedLastState : Elevator :=
  { config := defaultConfig, current_floor := 3, direction := Direction.UP,
    door := DoorState.CLOSED, requested_floors := ∅, pressed := ∅, stuck := ∅ }

/-- C3 counterexample: starting from a fresh elevator, press floor 3 (the
invariant holds there) and let `process_next_request` service this last
pending request: the request set becomes empty but the direction stays
UP, so the invariant is broken immediately after the call. -/
theorem c3_invariant_counterexample :
    dir_idle_iff_empty (press_floor_button (Elevator.init defaultConfig) 3).2 ∧
    process_next_request (press_floor_button (Elevator.init defaultConfig) 3).2 =
      some (true, servicedLastState) ∧
    ¬ dir_idle_iff_empty servicedLastState := by
  exact ⟨by decide, by decide, by decide⟩

lemma ite_door_open (e : Elevator) :
    (if e.door = DoorState.OPEN then e else { e with door := DoorState.OPEN }) =
      { e with door := DoorState.OPEN } := by
  by_cases h : e.door = DoorState.OPEN
  · rw [if_pos h]
    cases e
    simp_all
  · rw [if_neg h]

lemma ite_door_closed (e : Elevator) :
    (if e.door = DoorState.CLOSED then e else { e with door := DoorState.CLOSED }) =
      { e with door := DoorState.CLOSED } := by
  by_cases h : e.door = DoorState.CLOSED
  · rw [if_pos h]
    cases e
    simp_all
  · rw [if_neg h]

/-- `process_next_request` when the dispatch query reports no pending
requests: direction reset to IDLE, nothing else changes. -/
lemma pnr_none (s s1 : Elevator) (hget : get_next_floor s = some (none, s1)) :
    process_next_request s = some (false, { s1 with direction := Direction.IDLE }) := by
  unfold process_next_request
  rw [hget]

/-- `process_next_request` when the dispatch query selects floor `nf`:
the cabin moves to `nf`, the door cycles and ends CLOSED, and `nf` is
removed from the request set with its button released. -/
lemma pnr_some (s s1 : Elevator) (nf : Int)
    (hget : get_next_floor s = some (some nf, s1)) :
    process_next_request s =
      some (true, { move_to_floor s1 nf with
                    door := DoorState.CLOSED
                    requested_floors := (move_to_floor s1 nf).requested_floors.erase nf
                    pressed := (move_to_floor s1 nf).pressed.erase nf }) := by
  have hmem1 : nf ∈ s1.requested_floors := by
    have h0 := gnff_mem 4 s nf s1 hget
    rw [(gnff_frame 4 s (some nf) s1 hget).1]
    exact h0
  have hmem2 : nf ∈ (move_to_floor s1 nf).requested_floors := by
    rw [(move_to_floor_frame s1 nf).1]
    exact hmem1
  unfold process_next_request
  rw [hget]
  dsimp only
  rw [ite_door_open (move_to_floor s1 nf)]
  rw [if_pos (show nf ∈
    ({ move_to_floor s1 nf with door := DoorState.OPEN } : Elevator).requested_floors
    from hmem2)]
  rw [ite_door_closed _]

/-- C4 (amended): "every floor in the RequestSet has its Button pressed"
holds initially and is preserved by `press_floor_button` and by
`process_next_request`; it is NOT preserved by `add_random_stop`, which
adds a floor to the RequestSet without pressing its button. -/
theorem c4_buttons_amended :
    (∀ cfg : ElevatorConfig, buttons_pressed_inv (Elevator.init cfg)) ∧
    (∀ (s : Elevator) (f : Int),
      buttons_pressed_inv s → buttons_pressed_inv (press_floor_button s f).2) ∧
    (∀ (s : Elevator) (b : Bool) (s' : Elevator), buttons_pressed_inv s →
      process_next_request s = some (b, s') → buttons_pressed_inv s') := by
  refine ⟨?_, ?_, ?_⟩
  · intro cfg
    exact Finset.Subset.refl ∅
  · intro s f hinv
    unfold press_floor_button
    by_cases hb : s.config.min_floors ≤ f ∧ f ≤ s.config.max_floors
    · rw [if_pos hb]
      by_cases hs : f ∈ s.stuck
      · rw [if_pos hs]
        exact hinv
      · rw [if_neg hs]
        by_cases hid : s.direction = Direction.IDLE
        · rw [if_pos hid]
          exact Finset.insert_subset_insert f hinv
        · rw [if_neg hid]
          exact Finset.insert_subset_insert f hinv
    · rw [if_neg hb]
      exact hinv
  · intro s b s' hinv hpnr
    cases hget : get_next_floor s with
    | none =>
      unfold process_next_request at hpnr
      rw [hget] at hpnr
      exact Option.noConfusion hpnr
    | some val =>
      obtain ⟨r, s1⟩ := val
      have hfr := gnff_frame 4 s r s1 hget
      cases r with
      | none =>
        rw [pnr_none s s1 hget] at hpnr
        obtain ⟨-, rfl⟩ := Prod.mk.injEq .. ▸ Option.some.inj hpnr
        show ({ s1 with direction := Direction.IDLE } : Elevator).requested_floors ⊆ _
        rw [show ({ s1 with direction := Direction.IDLE } : Elevator).requested_floors
            = s1.requested_floors from rfl, hfr.1,
          show ({ s1 with direction := Direction.IDLE } : Elevator).pressed
            = s1.pressed from rfl, hfr.2.2.1]
        exact hinv
      | some nf =>
        rw [pnr_some s s1 nf hget] at hpnr
        obtain ⟨-, rfl⟩ := Prod.mk.injEq .. ▸ Option.some.inj hpnr
        have hmv := move_to_floor_frame s1 nf
        show ((move_to_floor s1 nf).requested_floors.erase nf : Finset Int) ⊆
          (move_to_floor s1 nf).pressed.erase nf
        rw [hmv.1, hmv.2.1, hfr.1, hfr.2.2.1]
        exact Finset.erase_subset_erase nf hinv

/-- C4 witness: the preserved parts, instantiated on a fresh elevator. -/
theorem c4_buttons_amended_witness :
    buttons_pressed_inv (press_floor_button (Elevator.init defaultConfig) 3).2 :=
  c4_buttons_amended.2.1 (Elevator.init defaultConfig) 3 (by decide)

/-- C4 counterexample: on a fresh elevator (where the invariant holds),
`add_random_stop` drawing floor 3 puts 3 into the RequestSet while its
button stays released. -/
theorem c4_buttons_counterexample :
    buttons_pressed_inv (Elevator.init defaultConfig) ∧
    3 ∈ (add_random_stop (Elevator.init defaultConfig) 3).requested_floors ∧
    3 ∉ (add_random_stop (Elevator.init defaultConfig) 3).pressed ∧
    ¬ buttons_pressed_inv (add_random_stop (Elevator.init defaultConfig) 3) := by
  exact ⟨by decide, by decide, by decide, by decide⟩

/-- C5: pressing an in-bounds, unstuck floor button succeeds, records the
floor in the request set, marks the button pressed, and resolves an IDLE
direction toward the floor (UP iff the floor is above the current one);
a non-IDLE direction is left unchanged. -/
theorem c5_press_success (s : Elevator) (f : Int)
    (hlo : s.config.min_floors ≤ f) (hhi : f ≤ s.config.max_floors)
    (hst : f ∉ s.stuck) :
    (press_floor_button s f).1 = true ∧
    f ∈ (press_floor_button s f).2.requested_floors ∧
    f ∈ (press_floor_button s f).2.pressed ∧
    (s.direction = Direction.IDLE →
      (press_floor_button s f).2.direction =
        (if s.current_floor < f then Direction.UP else Direction.DOWN)) ∧
    (s.direction ≠ Direction.IDLE →
      (press_floor_button s f).2.direction = s.direction) := by
  unfold press_floor_button
  rw [if_pos ⟨hlo, hhi⟩, if_neg hst]
  by_cases hid : s.direction = Direction.IDLE
  · rw [if_pos hid]
    exact ⟨rfl, Finset.mem_insert_self f s.requested_floors,
      Finset.mem_insert_self f s.pressed, fun _ => rfl, fun h => absurd hid h⟩
  · rw [if_neg hid]
    exact ⟨rfl, Finset.mem_insert_self f s.requested_floors,
      Finset.mem_insert_self f s.pressed, fun h => absurd h hid, fun _ => rfl⟩

/-- C5 witness: pressing floor 3 in a fresh default elevator. -/
theorem c5_press_success_witness :
    (press_floor_button (Elevator.init defaultConfig) 3).1 = true ∧
    3 ∈ (press_floor_button (Elevator.init defaultConfig) 3).2.requested_floors ∧
    (press_floor_button (Elevator.init defaultConfig) 3).2.direction = Direction.UP := by
  have h := c5_press_success (Elevator.init defaultConfig) 3
    (by decide) (by decide) (by decide)
  refine ⟨h.1, h.2.1, ?_⟩
  rw [h.2.2.2.1 rfl]
  decide

/-- C6: an out-of-bounds floor or a stuck button makes
`press_floor_button` return False with the whole state unchanged. -/
theorem c6_press_rejected (s : Elevator) (f : Int)
    (h : ¬ (s.config.min_floors ≤ f ∧ f ≤ s.config.max_floors) ∨ f ∈ s.stuck) :
    press_floor_button s f = (false, s) := by
  unfold press_floor_button
  by_cases hb : s.config.min_floors ≤ f ∧ f ≤ s.config.max_floors
  · rcases h with h | h
    · exact absurd hb h
    · rw [if_pos hb, if_pos h]
  · rw [if_neg hb]

/-- C6 witness: floor 99 is out of bounds; floor 1 with a stuck button. -/
theorem c6_press_rejected_witness :
    press_floor_button (Elevator.init defaultConfig) 99 =
      (false, Elevator.init defaultConfig) ∧
    press_floor_button { Elevator.init defaultConfig with stuck := {1} } 1 =
      (false, { Elevator.init defaultConfig with stuck := {1} }) :=
  ⟨c6_press_rejected (Elevator.init defaultConfig) 99 (Or.inl (by decide)),
   c6_press_rejected { Elevator.init defaultConfig with stuck := {1} } 1
     (Or.inr (by decide))⟩

/-- C7: `force_open` succeeds exactly when the door is CLOSING, in which
case the door ends OPEN; in every other state it fails and the state is
unchanged. -/
theorem c7_force_open_spec (s : Elevator) :
    ((force_open s).1 = true ↔ s.door = DoorState.CLOSING) ∧
    (s.door = DoorState.CLOSING → (force_open s).2.door = DoorState.OPEN) ∧
    (s.door ≠ DoorState.CLOSING → (force_open s).2 = s) := by
  unfold force_open
  by_cases h : s.door = DoorState.CLOSING
  · rw [if_pos h]
    exact ⟨⟨fun _ => h, fun _ => rfl⟩, fun _ => rfl, fun hn => absurd h hn⟩
  · rw [if_neg h]
    exact ⟨⟨fun hc => Bool.noConfusion hc, fun hc => absurd hc h⟩,
      fun hc => absurd hc h, fun _ => rfl⟩

/-- C7 witness: forcing a closing door open succeeds and ends OPEN;
forcing a closed door fails and changes nothing. -/
theorem c7_force_open_spec_witness :
    (force_open { Elevator.init defaultConfig with door := DoorState.CLOSING }).1 = true ∧
    (force_open { Elevator.init defaultConfig with
      door := DoorState.CLOSING }).2.door = DoorState.OPEN ∧
    (force_open (Elevator.init defaultConfig)).2 = Elevator.init defaultConfig :=
  ⟨(c7_force_open_spec { Elevator.init defaultConfig with
      door := DoorState.CLOSING }).1.mpr rfl,
   (c7_force_open_spec { Elevator.init defaultConfig with
      door := DoorState.CLOSING }).2.1 rfl,
   (c7_force_open_spec (Elevator.init defaultConfig)).2.2 (by decide)⟩

/-- C8 (amended): `add_random_stop` never newly adds the current floor,
never pushes the pending-set size beyond `max_floors - min_floors` when
it was not already beyond it, and leaves the state unchanged when the
size is at (or beyond) that cap. -/
theorem c8_cap_amended (s : Elevator) (r : Int) :
    (s.current_floor ∉ s.requested_floors →
      s.current_floor ∉ (add_random_stop s r).requested_floors) ∧
    ((s.requested_floors.card : Int) ≤ s.config.max_floors - s.config.min_floors →
      ((add_random_stop s r).requested_floors.card : Int) ≤
        s.config.max_floors - s.config.min_floors) ∧
    (s.config.max_floors - s.config.min_floors ≤ (s.requested_floors.card : Int) →
      add_random_stop s r = s) := by
  unfold add_random_stop
  by_cases h1 : (s.requested_floors.card : Int) < s.config.max_floors - s.config.min_floors
  · rw [if_pos h1]
    by_cases h2 : r ≠ s.current_floor
    · rw [if_pos h2]
      refine ⟨?_, ?_, ?_⟩
      · intro hni hmem
        rcases Finset.mem_insert.1 hmem with he | hin
        · exact h2 he.symm
        · exact hni hin
      · intro _
        have hcard : (insert r s.requested_floors).card ≤ s.requested_floors.card + 1 :=
          Finset.card_insert_le r s.requested_floors
        have h2' : ((insert r s.requested_floors).card : Int) ≤
            (s.requested_floors.card : Int) + 1 := by exact_mod_cast hcard
        show ((insert r s.requested_floors).card : Int) ≤
          s.config.max_floors - s.config.min_floors
        omega
      · intro hge
        exact absurd h1 (not_lt.2 hge)
    · rw [if_neg h2]
      exact ⟨fun h => h, fun h => h, fun _ => rfl⟩
  · rw [if_neg h1]
    exact ⟨fun h => h, fun h => h, fun _ => rfl⟩

/-- C8 witness: a fresh elevator is below the cap and stays below it. -/
theorem c8_cap_amended_witness :
    ((add_random_stop (Elevator.init defaultConfig) 7).requested_floors.card : Int) ≤
      (Elevator.init defaultConfig).config.max_floors -
        (Elevator.init defaultConfig).config.min_floors :=
  (c8_cap_amended (Elevator.init defaultConfig) 7).2.1 (by decide)

/-- A reachable state whose request set already holds all 15 floors of the
default configuration — one more than the cap 14. -/
def overCapState : Elevator :=
  { config := defaultConfig, current_floor := 1, direction := Direction.UP,
    door := DoorState.CLOSED,
    requested_floors := {1, 2, 3, 4, 5, 6, 7, 8, 9, 10, 11, 12, 13, 14, 15},
    pressed := {1, 2, 3, 4, 5, 6, 7, 8, 9, 10, 11, 12, 13, 14, 15}, stuck := ∅ }

/-- C8 counterexample: `press_floor_button` can make the request set hold
all 15 floors (cap is 14); `add_random_stop` then leaves its size at 15,
so "after add_random_stop the size never exceeds max_floors - min_floors"
is false. -/
theorem c8_cap_counterexample :
    ((add_random_stop overCapState 7).config.max_floors -
        (add_random_stop overCapState 7).config.min_floors : Int) <
      ((add_random_stop overCapState 7).requested_floors.card : Int) := by
  decide

lemma press_floor_button_frame (s : Elevator) (f : Int) :
    (press_floor_button s f).2.current_floor = s.current_floor ∧
    (press_floor_button s f).2.config = s.config ∧
    (press_floor_button s f).2.stuck = s.stuck := by
  unfold press_floor_button
  by_cases hb : s.config.min_floors ≤ f ∧ f ≤ s.config.max_floors
  · rw [if_pos hb]
    by_cases hs : f ∈ s.stuck
    · rw [if_pos hs]
      exact ⟨rfl, rfl, rfl⟩
    · rw [if_neg hs]
      by_cases hid : s.direction = Direction.IDLE
      · rw [if_pos hid]
        exact ⟨rfl, rfl, rfl⟩
      · rw [if_neg hid]
        exact ⟨rfl, rfl, rfl⟩
  · rw [if_neg hb]
    exact ⟨rfl, rfl, rfl⟩

lemma add_random_stop_frame (s : Elevator) (r : Int) :
    (add_random_stop s r).current_floor = s.current_floor ∧
    (add_random_stop s r).config = s.config := by
  unfold add_random_stop
  by_cases h1 : (s.requested_floors.card : Int) < s.config.max_floors - s.config.min_floors
  · rw [if_pos h1]
    by_cases h2 : r ≠ s.current_floor
    · rw [if_pos h2]
      exact ⟨rfl, rfl⟩
    · rw [if_neg h2]
      exact ⟨rfl, rfl⟩
  · rw [if_neg h1]
    exact ⟨rfl, rfl⟩

/-- C9 (amended): the current floor stays within bounds through
`press_floor_button`, `add_random_stop`, `move_to_floor` restricted to
in-bounds targets, and `process_next_request` on states whose pending
floors are in bounds; it holds initially for any sane configuration.
`move_to_floor` with an arbitrary integer target does NOT preserve it. -/
theorem c9_bounds_amended :
    (∀ cfg : ElevatorConfig, cfg.min_floors ≤ cfg.max_floors →
      in_bounds (Elevator.init cfg)) ∧
    (∀ (s : Elevator) (f : Int), in_bounds s → in_bounds (press_floor_button s f).2) ∧
    (∀ (s : Elevator) (r : Int), in_bounds s → in_bounds (add_random_stop s r)) ∧
    (∀ (s : Elevator) (t : Int), s.config.min_floors ≤ t → t ≤ s.config.max_floors →
      in_bounds (move_to_floor s t)) ∧
    (∀ (s : Elevator) (b : Bool) (s' : Elevator), in_bounds s → requested_in_bounds s →
      process_next_request s = some (b, s') → in_bounds s') := by
  refine ⟨?_, ?_, ?_, ?_, ?_⟩
  · intro cfg h
    exact ⟨le_refl cfg.min_floors, h⟩
  · intro s f hinv
    have hf := press_floor_button_frame s f
    unfold in_bounds
    rw [hf.1, hf.2.1]
    exact hinv
  · intro s r hinv
    have hf := add_random_stop_frame s r
    unfold in_bounds
    rw [hf.1, hf.2]
    exact hinv
  · intro s t hlo hhi
    unfold in_bounds
    rw [move_to_floor_current s t, (move_to_floor_frame s t).2.2.2.2]
    exact ⟨hlo, hhi⟩
  · intro s b s' hb hreq hpnr
    cases hget : get_next_floor s with
    | none =>
      unfold process_next_request at hpnr
      rw [hget] at hpnr
      exact Option.noConfusion hpnr
    | some val =>
      obtain ⟨r, s1⟩ := val
      have hfr := gnff_frame 4 s r s1 hget
      cases r with
      | none =>
        rw [pnr_none s s1 hget] at hpnr
        obtain ⟨-, rfl⟩ := Prod.mk.injEq .. ▸ Option.some.inj hpnr
        unfold in_bounds
        dsimp only
        rw [hfr.2.1, hfr.2.2.2.2.2]
        exact hb
      | some nf =>
        rw [pnr_some s s1 nf hget] at hpnr
        obtain ⟨-, rfl⟩ := Prod.mk.injEq .. ▸ Option.some.inj hpnr
        have hnf : nf ∈ s.requested_floors := gnff_mem 4 s nf s1 hget
        unfold in_bounds
        dsimp only
        rw [move_to_floor_current s1 nf, (move_to_floor_frame s1 nf).2.2.2.2,
          hfr.2.2.2.2.2]
        exact hreq nf hnf

/-- C9 witness: moving a fresh elevator to in-bounds floor 15 keeps the
current floor within bounds. -/
theorem c9_bounds_amended_witness :
    in_bounds (move_to_floor (Elevator.init defaultConfig) 15) :=
  c9_bounds_amended.2.2.2.1 (Elevator.init defaultConfig) 15 (by decide) (by decide)

/-- C9 counterexample: a fresh elevator is in bounds, yet the public
`move_to_floor(100)` drives the current floor to 100 > max_floors = 15 —
the bounds invariant is not preserved by `move_to_floor` with an
arbitrary integer target. -/
theorem c9_bounds_counterexample :
    in_bounds (Elevator.init defaultConfig) ∧
    ¬ in_bounds (move_to_floor (Elevator.init defaultConfig) 100) := by
  exact ⟨by decide, by decide⟩

/-- C10: every pending floor lies within the configured bounds: true
initially and preserved by `press_floor_button` (which validates bounds)
and by `add_random_stop` (whose drawn floor is within the `randint`
range). -/
theorem c10_requested_bounds :
    (∀ cfg : ElevatorConfig, requested_in_bounds (Elevator.init cfg)) ∧
    (∀ (s : Elevator) (f : Int), requested_in_bounds s →
      requested_in_bounds (press_floor_button s f).2) ∧
    (∀ (s : Elevator) (r : Int), s.config.min_floors ≤ r → r ≤ s.config.max_floors →
      requested_in_bounds s → requested_in_bounds (add_random_stop s r)) := by
  refine ⟨?_, ?_, ?_⟩
  · intro cfg f hf
    exact absurd hf (Finset.not_mem_empty f)
  · intro s f hinv
    unfold press_floor_button
    by_cases hb : s.config.min_floors ≤ f ∧ f ≤ s.config.max_floors
    · rw [if_pos hb]
      by_cases hs : f ∈ s.stuck
      · rw [if_pos hs]
        exact hinv
      · rw [if_neg hs]
        by_cases hid : s.direction = Direction.IDLE
        · rw [if_pos hid]
          intro g hg
          rcases Finset.mem_insert.1 hg with rfl | hg'
          · exact hb
          · exact hinv g hg'
        · rw [if_neg hid]
          intro g hg
          rcases Finset.mem_insert.1 hg with rfl | hg'
          · exact hb
          · exact hinv g hg'
    · rw [if_neg hb]
      exact hinv
  · intro s r hlo hhi hinv
    unfold add_random_stop
    by_cases h1 : (s.requested_floors.card : Int) < s.config.max_floors - s.config.min_floors
    · rw [if_pos h1]
      by_cases h2 : r ≠ s.current_floor
      · rw [if_pos h2]
        intro g hg
        rcases Finset.mem_insert.1 hg with rfl | hg'
        · exact ⟨hlo, hhi⟩
        · exact hinv g hg'
      · rw [if_neg h2]
        exact hinv
    · rw [if_neg h1]
      exact hinv

/-- C10 witness: pressing floor 3 and then drawing random floor 5 keeps
every pending floor within [1, 15]. -/
theorem c10_requested_bounds_witness :
    requested_in_bounds
      (add_random_stop (press_floor_button (Elevator.init defaultConfig) 3).2 5) :=
  c10_requested_bounds.2.2 (press_floor_button (Elevator.init defaultConfig) 3).2 5
    (by decide) (by decide)
    (c10_requested_bounds.2.1 (Elevator.init defaultConfig) 3 (by decide))
